import Mathlib

/-!
# boxgo/schedule: the execution controller, embedded in Lean

Shallow embedding of `schedule.go` (the `Schedule` descriptor, `ConfigDidLoad`,
`Serve`, `execOnce`, `execTiming`, `exec`, `isWinner`, `lockKey`) and of
`lock/redis/redis.go` (the redis-backed `Locker`).

Conventions of the embedding

* A Go `error` is an `Option String`: `none` is `nil`, `some msg` is an error whose
  `Error()` text is `msg`.
* A Go pair `(bool, error)` is a `Bool × Option String`.
* `time.Duration` is an `Int` count of nanoseconds (a signed 64-bit value in Go).
* `uint` is a `Nat` below `2 ^ bits`; arithmetic on it is reduced modulo `2 ^ bits`.
* The lock backend and the handler act on an explicit world state `σ` that is threaded
  through every call. One Run (`go func() { ... }()` in `exec`) is modelled as the
  sequential function from the world before it to the world after it; the calls it
  makes are recorded, in order, in a list of `Call`.
* A Go panic is carried as `Except.error v`; a function that returns normally yields
  `Except.ok`.
* Logging (`logger.Default.*`, `debug.PrintStack`) has no effect on control flow and is
  left out.
-/

/-! ## The lock capability (`lock.Lock`) -/

/-- The three methods of the `lock.Lock` interface used by `schedule.go`:
`Lock(key, ttl) (bool, error)`, `IsLocked(key) (bool, error)` and `UnLock(key) error`,
each acting on the world state `σ`. -/
structure Locker (σ : Type) where
  Lock : String → Int → σ → (Bool × Option String) × σ
  IsLocked : String → σ → (Bool × Option String) × σ
  UnLock : String → σ → Option String × σ

/-- One observable call made by a Run. -/
inductive Call where
  | IsLocked (key : String)
  | Lock (key : String) (ttl : Int)
  | UnLock (key : String)
  | Handler
  deriving DecidableEq, Repr

/-- How a handler invocation ends: it returns an `error` (possibly `nil`) or it panics. -/
inductive Outcome where
  | ret (err : Option String)
  | crash (v : String)
  deriving DecidableEq, Repr

/-- A `Handler func(sch *Schedule) error`: the descriptor it receives is the read-only
configuration, so a handler is given by what it does to the world and how it ends. -/
abbrev Handler (σ : Type) := σ → Outcome × σ

/-- The result of running a piece of Go code: its value (or the panic it raised), the
world it leaves and the calls it made. -/
structure Step (σ : Type) (α : Type) where
  val : Except String α
  world : σ
  calls : List Call

/-- The run-time panic raised by a method call on a nil interface value. -/
def nilDeref : String := "invalid memory address or nil pointer dereference"

/-! ## The trigger engine (`cron.Cron`) -/

/-- The part of a `cron.Cron` that `schedule.go` touches: the registered entries (the
spec and the handler that the callback passes to `exec`) and whether it was started. -/
structure Cron (σ : Type) where
  entries : List (String × Handler σ)
  running : Bool

/-- The call `cron.New()`. -/
def Cron.New {σ : Type} : Cron σ := ⟨[], false⟩

/-- The call `c.AddFunc(spec, cmd)`: the engine parses `spec` (`accepts` tells whether the
parse succeeds); a rejected spec is reported as an error and nothing is registered. -/
def Cron.AddFunc {σ : Type} (accepts : String → Bool) (c : Cron σ) (spec : String)
    (cmd : Handler σ) : Cron σ × Option String :=
  if accepts spec then ({ c with entries := c.entries ++ [(spec, cmd)] }, none)
  else (c, some "cron: spec rejected")

/-- The call `c.Start()`. -/
def Cron.Start {σ : Type} (c : Cron σ) : Cron σ := { c with running := true }

/-! ## The descriptor -/

/-- The Go type `Type int`. -/
abbrev TaskType := Int

/-- Constant `Stop = Type(0)`. -/
def Stop : TaskType := 0
/-- Constant `Once = Type(1)`. -/
def Once : TaskType := 1
/-- Constant `Timing = Type(2)`. -/
def Timing : TaskType := 2
/-- Constant `OnceAndTiming = Type(3)`. -/
def OnceAndTiming : TaskType := 3

/-- The struct `Schedule`. The field `type` is the Go field `Type`; `appName` is
`app.AppName`; `Args` plays no part in the controller and is left out. -/
structure Schedule (σ : Type) where
  name : String
  type : TaskType
  LockPrefix : String
  LockSeconds : Nat
  AutoUnlock : Bool
  Compete : Bool
  Spec : String
  appName : String
  cron : Option (Cron σ)
  locker : Option (Locker σ)
  onceHandler : Option (Handler σ)
  timingHandler : Option (Handler σ)
  LockDuration : Int

namespace Schedule

variable {σ : Type}

/-- The method `Name`: `"schedules." + s.name`. -/
def Name (s : Schedule σ) : String := "schedules." ++ s.name

/-- The method `lockKey`: `s.LockPrefix + "." + s.Name() + ".locker"`. -/
def lockKey (s : Schedule σ) : String := s.LockPrefix ++ "." ++ s.Name ++ ".locker"

/-- The constant `time.Second`, in nanoseconds. -/
def Second : Int := 1000000000

/-- The conversion `time.Duration(x)` of a `uint` value: the low 64 bits read as a signed
64-bit integer. -/
def toDuration (x : Nat) : Int :=
  if x % 2 ^ 64 < 2 ^ 63 then ((x % 2 ^ 64 : Nat) : Int) else ((x % 2 ^ 64 : Nat) : Int) - 2 ^ 64

/-- The method `ConfigDidLoad`, with `bits` the width of `uint` (32 or 64). The panic
`"schedules config is invalid"` is `Except.error`. -/
def ConfigDidLoad (bits : Nat) (s : Schedule σ) : Except String (Schedule σ) :=
  if s.name = "" ∨ s.Spec = "" then
    .error "schedules config is invalid"
  else
    let s1 := if s.LockPrefix = "" then { s with LockPrefix := s.appName } else s
    if s1.LockSeconds = 0 then
      .ok { s1 with LockDuration := Second * 10 }
    else
      .ok { s1 with LockDuration := toDuration ((1000000000 * s1.LockSeconds) % 2 ^ bits) }

/-- The method `isWinner`. -/
def isWinner (s : Schedule σ) (w : σ) : Step σ Bool :=
  if s.Compete then
    match s.locker with
    | none => ⟨.error nilDeref, w, []⟩
    | some l =>
      let r := l.IsLocked s.lockKey w
      if r.1.2 ≠ none then
        ⟨.ok false, r.2, [Call.IsLocked s.lockKey]⟩
      else if r.1.1 then
        ⟨.ok false, r.2, [Call.IsLocked s.lockKey]⟩
      else
        ⟨.ok true, r.2, [Call.IsLocked s.lockKey]⟩
  else
    ⟨.ok true, w, []⟩

/-- Lines 160-167 of `exec`: the handler is called; a returned error is only logged. -/
def callHandler (handler : Handler σ) (w : σ) (before : List Call) : Step σ Unit :=
  match handler w with
  | (Outcome.ret _, w1) => ⟨.ok (), w1, before ++ [Call.Handler]⟩
  | (Outcome.crash v, w1) => ⟨.error v, w1, before ++ [Call.Handler]⟩

/-- The body of the goroutine of `exec`, after the `defer` statement (lines 145-167). -/
def execBody (s : Schedule σ) (handler : Handler σ) (w : σ) : Step σ Unit :=
  let win := s.isWinner w
  match win.val with
  | .error v => ⟨.error v, win.world, win.calls⟩
  | .ok false => ⟨.ok (), win.world, win.calls⟩
  | .ok true =>
    if s.Compete then
      match s.locker with
      | none => ⟨.error nilDeref, win.world, win.calls⟩
      | some l =>
        let r := l.Lock s.lockKey s.LockDuration win.world
        let calls := win.calls ++ [Call.Lock s.lockKey s.LockDuration]
        if r.1.2 ≠ none then
          ⟨.ok (), r.2, calls⟩
        else if !r.1.1 then
          ⟨.ok (), r.2, calls⟩
        else
          callHandler handler r.2 calls
    else
      callHandler handler win.world win.calls

/-- The deferred function of `exec` (lines 133-143), run when the body has returned or is
panicking: first the unlock guarded by `s.Compete && s.AutoUnlock`, then `recover()`.
A panic raised inside the deferred function itself is not recovered. -/
def execDeferred (s : Schedule σ) (body : Step σ Unit) : Step σ Unit :=
  if s.Compete && s.AutoUnlock then
    match s.locker with
    | none => ⟨.error nilDeref, body.world, body.calls⟩
    | some l =>
      let r := l.UnLock s.lockKey body.world
      ⟨.ok (), r.2, body.calls ++ [Call.UnLock s.lockKey]⟩
  else
    ⟨.ok (), body.world, body.calls⟩

/-- One Run: the goroutine started by `exec(handler)`. The value is `Except.error` when a
panic leaves the goroutine. -/
def exec (s : Schedule σ) (handler : Handler σ) (w : σ) : Step σ Unit :=
  s.execDeferred (s.execBody handler w)

/-- What `Serve` leaves behind: the error it returns, the descriptor (with its `cron`
field), the Runs it started itself (one `exec(handler)` goroutine each, in order) and the
specs it passed to `AddFunc`. -/
structure Served (σ : Type) where
  err : Option String
  sched : Schedule σ
  runs : List (Handler σ)
  addFuncs : List String

/-- The method `execOnce`: the Runs it starts. -/
def execOnce (s : Schedule σ) : List (Handler σ) :=
  match s.onceHandler with
  | none => []
  | some h => [h]

/-- The method `execTiming`, over a trigger engine that accepts the specs `accepts` holds
of: the descriptor afterwards and the specs passed to `AddFunc`. The error returned by
`AddFunc` is dropped, as in the source. -/
def execTiming (accepts : String → Bool) (s : Schedule σ) : Schedule σ × List String :=
  match s.timingHandler with
  | none => (s, [])
  | some h =>
    let c := (Cron.New : Cron σ)
    let c1 := (c.AddFunc accepts s.Spec h).1
    let c2 := c1.Start
    ({ s with cron := some c2 }, [s.Spec])

/-- The method `Serve`. -/
def Serve (accepts : String → Bool) (s : Schedule σ) : Served σ :=
  if s.type = Once then
    ⟨none, s, s.execOnce, []⟩
  else if s.type = Timing then
    let t := s.execTiming accepts
    ⟨none, t.1, [], t.2⟩
  else if s.type = OnceAndTiming then
    let t := s.execTiming accepts
    ⟨none, t.1, s.execOnce, t.2⟩
  else
    ⟨none, s, [], []⟩

/-- The Runs started when the engine fires every registered entry once: each callback is
`func() { s.exec(s.timingHandler) }`. A `nil` cron, or one that was not started, fires
nothing. -/
def fire (s : Schedule σ) : List (Handler σ) :=
  match s.cron with
  | none => []
  | some c => if c.running then c.entries.map Prod.snd else []

/-- The Runs of `n` successive triggers of the same handler, one after the other. A panic
that leaves a Run ends the process, so the remaining triggers do not run. -/
def triggers (s : Schedule σ) (handler : Handler σ) : Nat → σ → Step σ Unit
  | 0, w => ⟨.ok (), w, []⟩
  | n + 1, w =>
    let r := s.exec handler w
    match r.val with
    | .error v => ⟨.error v, r.world, r.calls⟩
    | .ok _ =>
      let rest := triggers s handler n r.world
      ⟨rest.val, rest.world, r.calls ++ rest.calls⟩

end Schedule

/-! ## Construction (`options.go`, `New`) -/

/-- The struct `Options`. -/
structure Options (σ : Type) where
  locker : Option (Locker σ)
  onceHandler : Option (Handler σ)
  timingHandler : Option (Handler σ)

/-- The function `WithLocker`. -/
def WithLocker {σ : Type} (locker : Locker σ) : Options σ → Options σ :=
  fun op => { op with locker := some locker }

/-- The function `WithOnceHandler`. -/
def WithOnceHandler {σ : Type} (handler : Handler σ) : Options σ → Options σ :=
  fun op => { op with onceHandler := some handler }

/-- The function `WithTimingHandler`. -/
def WithTimingHandler {σ : Type} (handler : Handler σ) : Options σ → Options σ :=
  fun op => { op with timingHandler := some handler }

/-- The function `New`: every field that is not named keeps its zero value. -/
def New {σ : Type} (name : String) (opts : List (Options σ → Options σ)) : Schedule σ :=
  let options := opts.foldl (fun o opt => opt o) (⟨none, none, none⟩ : Options σ)
  { name := name
    type := 0
    LockPrefix := ""
    LockSeconds := 0
    AutoUnlock := false
    Compete := false
    Spec := ""
    appName := ""
    cron := none
    locker := options.locker
    onceHandler := options.onceHandler
    timingHandler := options.timingHandler
    LockDuration := 0 }

/-! ## The redis locker (`lock/redis/redis.go`) -/

/-- The three commands of the redis client that the locker issues, with their `Result()`:
`SetNX(key, value, ttl)`, `Get(key)` and `Del(key)`. -/
structure RedisClient (σ : Type) where
  SetNX : String → String → Int → σ → (Bool × Option String) × σ
  Get : String → σ → (String × Option String) × σ
  Del : String → σ → (Int × Option String) × σ

namespace RedisLocker

variable {σ : Type}

/-- The method `(*Locker).Lock`; `now` reads `time.Now().Unix()`. -/
def Lock (c : RedisClient σ) (now : σ → Int) (key : String) (ttl : Int) (w : σ) :
    (Bool × Option String) × σ :=
  c.SetNX key (toString (now w)) ttl w

/-- The method `(*Locker).IsLocked`. -/
def IsLocked (c : RedisClient σ) (key : String) (w : σ) : (Bool × Option String) × σ :=
  let r := c.Get key w
  match r.1.2 with
  | some e =>
    if e = "redis: nil" then ((false, none), r.2)
    else ((false, some e), r.2)
  | none =>
    if r.1.1.utf8ByteSize ≠ 0 then ((true, none), r.2)
    else ((false, none), r.2)

/-- The method `(*Locker).UnLock`. -/
def UnLock (c : RedisClient σ) (key : String) (w : σ) : Option String × σ :=
  let r := c.Del key w
  (r.1.2, r.2)

/-- The locker as a `lock.Lock`. -/
def locker (c : RedisClient σ) (now : σ → Int) : Locker σ :=
  ⟨Lock c now, IsLocked c, UnLock c⟩

end RedisLocker

/-! ## An explicit lock store

A key-value store held in memory, with the semantics of the three redis commands and no
I/O failure. Expiry needs time to pass; within the Runs modelled here no time passes, so the
ttl of an entry is recorded and never acted on. -/

/-- One entry of the store: the value and the ttl it was written with. -/
abbrev MemStore := List (String × String × Int)

namespace MemStore

/-- The value stored under `key`, if any. -/
def find (st : MemStore) (key : String) : Option String :=
  (st.lookup key).map Prod.fst

/-- The command `SET key value NX PX ttl`: writes only when the key is absent. -/
def SetNX (key value : String) (ttl : Int) (st : MemStore) : (Bool × Option String) × MemStore :=
  match st.lookup key with
  | some _ => ((false, none), st)
  | none => ((true, none), (key, value, ttl) :: st)

/-- The command `GET key`: an absent key is reported as the error `redis: nil`. -/
def Get (key : String) (st : MemStore) : (String × Option String) × MemStore :=
  match st.find key with
  | some v => ((v, none), st)
  | none => (("", some "redis: nil"), st)

/-- The command `DEL key`: removes the key and answers how many keys were removed. -/
def Del (key : String) (st : MemStore) : (Int × Option String) × MemStore :=
  ((if (st.lookup key).isSome then 1 else 0, none), st.filter (fun e => e.1 != key))

/-- The in-memory store as a redis client. -/
def client : RedisClient MemStore := ⟨SetNX, Get, Del⟩

/-- The redis locker over the in-memory store, with a clock that reads `now`. -/
def locker (now : Int) : Locker MemStore := RedisLocker.locker client (fun _ => now)

end MemStore

/-! ## Concrete descriptors used to exercise the statements -/

/-- A handler that returns `nil`. -/
def okHandler : Handler MemStore := fun w => (Outcome.ret none, w)

/-- A handler that returns an error. -/
def errHandler : Handler MemStore := fun w => (Outcome.ret (some "boom"), w)

/-- A handler that panics. -/
def crashHandler : Handler MemStore := fun w => (Outcome.crash "boom", w)

/-- A competitive, auto-unlocking task `job` of application `app`, over the in-memory store. -/
def competingTask : Schedule MemStore :=
  { New "job" [WithLocker (MemStore.locker 1700000000), WithOnceHandler okHandler,
      WithTimingHandler okHandler] with
    type := OnceAndTiming
    Compete := true
    AutoUnlock := true
    LockPrefix := "app"
    Spec := "@every 1s"
    LockDuration := 10000000000 }

/-- The same task with election switched off and no locker set. -/
def plainTask : Schedule MemStore :=
  { New "job" [WithOnceHandler okHandler] with
    type := Once
    Spec := "@every 1s" }

/-- The store in which another instance holds the key of `competingTask`. -/
def heldByOther : MemStore := [("app.schedules.job.locker", "1699999999", 10000000000)]

/-- A backend whose `Lock` always answers "not acquired" and that reports no key as held. -/
def refusingLocker : Locker MemStore :=
  ⟨fun _ _ w => ((false, none), w), fun _ w => ((false, none), w), fun _ w => (none, w)⟩

/-- The task `competingTask` over the refusing backend. -/
def refusedTask : Schedule MemStore := { competingTask with locker := some refusingLocker }

/-- A non-competitive task with a locker set. -/
def plainLockedTask : Schedule MemStore := { competingTask with Compete := false }

/-- A periodic task with a periodic handler and the empty schedule spec. -/
def emptySpecTask : Schedule MemStore :=
  { New "job" [WithTimingHandler okHandler] with type := Timing }

/-- A one-shot task with a name and the empty schedule spec. -/
def onceNoSpecTask : Schedule MemStore :=
  { New "job" [WithOnceHandler okHandler] with type := Once }

/-- A one-shot task for which no one-shot handler was configured. -/
def onceNoHandlerTask : Schedule MemStore :=
  { New "job" [WithTimingHandler okHandler] with type := Once, Spec := "@every 1s" }

/-- A trigger engine that rejects exactly the empty spec. -/
def rejectEmpty : String → Bool := fun spec => spec != ""

/-! ## Lemmas on one Run -/

namespace Schedule

variable {σ : Type}

/-- The calls and the world of a Run of a competitive task that loses at `IsLocked`. -/
theorem exec_loses_at_IsLocked (s : Schedule σ) (l : Locker σ) (h : Handler σ) (w : σ)
    (hc : s.Compete = true) (hl : s.locker = some l)
    (hq : (l.IsLocked s.lockKey w).1 ≠ (false, none)) :
    (s.execBody h w).calls = [Call.IsLocked s.lockKey] ∧
      (s.execBody h w).world = (l.IsLocked s.lockKey w).2 ∧
      (s.execBody h w).val = .ok () := by
  rcases hr : l.IsLocked s.lockKey w with ⟨⟨b, e⟩, w1⟩
  rw [hr] at hq
  cases b <;> cases e <;> simp_all [execBody, isWinner]

/-- The calls and the world of a Run of a competitive task that passes `IsLocked` and
loses at `Lock`. -/
theorem exec_loses_at_Lock (s : Schedule σ) (l : Locker σ) (h : Handler σ) (w : σ)
    (hc : s.Compete = true) (hl : s.locker = some l)
    (hq : (l.IsLocked s.lockKey w).1 = (false, none))
    (hk : (l.Lock s.lockKey s.LockDuration (l.IsLocked s.lockKey w).2).1 ≠ (true, none)) :
    (s.execBody h w).calls = [Call.IsLocked s.lockKey, Call.Lock s.lockKey s.LockDuration] ∧
      (s.execBody h w).world = (l.Lock s.lockKey s.LockDuration (l.IsLocked s.lockKey w).2).2 ∧
      (s.execBody h w).val = .ok () := by
  rcases hr : l.IsLocked s.lockKey w with ⟨⟨b, e⟩, w1⟩
  rw [hr] at hq hk
  simp only [Prod.mk.injEq] at hq
  obtain ⟨rfl, rfl⟩ := hq
  rcases hr2 : l.Lock s.lockKey s.LockDuration w1 with ⟨⟨b2, e2⟩, w2⟩
  simp only [hr2] at hk
  cases b2 <;> cases e2 <;> simp_all [execBody, isWinner]

/-- The calls and the world of a Run of a competitive task that wins. -/
theorem exec_wins (s : Schedule σ) (l : Locker σ) (h : Handler σ) (w : σ)
    (hc : s.Compete = true) (hl : s.locker = some l)
    (hq : (l.IsLocked s.lockKey w).1 = (false, none))
    (hk : (l.Lock s.lockKey s.LockDuration (l.IsLocked s.lockKey w).2).1 = (true, none)) :
    (s.execBody h w).calls =
        [Call.IsLocked s.lockKey, Call.Lock s.lockKey s.LockDuration, Call.Handler] ∧
      (s.execBody h w).world =
        (h (l.Lock s.lockKey s.LockDuration (l.IsLocked s.lockKey w).2).2).2 := by
  rcases hr : l.IsLocked s.lockKey w with ⟨⟨b, e⟩, w1⟩
  rw [hr] at hq hk
  simp only [Prod.mk.injEq] at hq
  obtain ⟨rfl, rfl⟩ := hq
  rcases hr2 : l.Lock s.lockKey s.LockDuration w1 with ⟨⟨b2, e2⟩, w2⟩
  simp only [hr2, Prod.mk.injEq] at hk
  obtain ⟨rfl, rfl⟩ := hk
  rcases hh : h w2 with ⟨o, w3⟩
  cases o <;> simp_all [execBody, isWinner, callHandler]

/-- The body of a winning Run whose handler panics is panicking when it ends. -/
theorem execBody_val_of_crash (s : Schedule σ) (l : Locker σ) (h : Handler σ) (w : σ)
    (v : String) (hc : s.Compete = true) (hl : s.locker = some l)
    (hq : (l.IsLocked s.lockKey w).1 = (false, none))
    (hk : (l.Lock s.lockKey s.LockDuration (l.IsLocked s.lockKey w).2).1 = (true, none))
    (hv : (h (l.Lock s.lockKey s.LockDuration (l.IsLocked s.lockKey w).2).2).1 =
      Outcome.crash v) :
    (s.execBody h w).val = .error v := by
  rcases hr : l.IsLocked s.lockKey w with ⟨⟨b, e⟩, w1⟩
  rw [hr] at hq hk hv
  simp only [Prod.mk.injEq] at hq
  obtain ⟨rfl, rfl⟩ := hq
  rcases hr2 : l.Lock s.lockKey s.LockDuration w1 with ⟨⟨b2, e2⟩, w2⟩
  simp only [hr2, Prod.mk.injEq] at hk hv
  obtain ⟨rfl, rfl⟩ := hk
  rcases hh : h w2 with ⟨o, w3⟩
  rw [hh] at hv
  simp only at hv
  subst hv
  simp_all [execBody, isWinner, callHandler]

/-- The body of a Run of a non-competitive task whose handler panics is panicking when it
ends. -/
theorem execBody_val_of_crash_plain (s : Schedule σ) (h : Handler σ) (w : σ) (v : String)
    (hc : s.Compete = false) (hv : (h w).1 = Outcome.crash v) :
    (s.execBody h w).val = .error v := by
  rcases hh : h w with ⟨o, w3⟩
  rw [hh] at hv
  simp only at hv
  subst hv
  simp [execBody, isWinner, callHandler, hc, hh]

/-- With a locker set, the deferred function always recovers: no panic leaves the Run. -/
theorem exec_val_of_locker (s : Schedule σ) (l : Locker σ) (h : Handler σ) (w : σ)
    (hl : s.locker = some l) : (s.exec h w).val = .ok () := by
  unfold exec execDeferred
  split_ifs <;> simp [hl]

/-- The calls of a Run of a competitive, auto-unlocking task: those of the body, then the
unlock. -/
theorem exec_calls_autoUnlock (s : Schedule σ) (l : Locker σ) (h : Handler σ) (w : σ)
    (hc : s.Compete = true) (ha : s.AutoUnlock = true) (hl : s.locker = some l) :
    (s.exec h w).calls = (s.execBody h w).calls ++ [Call.UnLock s.lockKey] ∧
      (s.exec h w).world = (l.UnLock s.lockKey (s.execBody h w).world).2 := by
  simp [exec, execDeferred, hc, ha, hl]

/-- A Run of a competitive, auto-unlocking task that loses at `IsLocked` (the key is held,
or the query failed) makes the calls `IsLocked` and then `UnLock`, and leaves the world
that `UnLock` leaves. -/
theorem exec_loser_unlocks (s : Schedule σ) (l : Locker σ) (h : Handler σ) (w : σ)
    (hc : s.Compete = true) (ha : s.AutoUnlock = true) (hl : s.locker = some l)
    (hq : (l.IsLocked s.lockKey w).1 ≠ (false, none)) :
    (s.exec h w).calls = [Call.IsLocked s.lockKey, Call.UnLock s.lockKey] ∧
      (s.exec h w).world = (l.UnLock s.lockKey (l.IsLocked s.lockKey w).2).2 := by
  have hb := exec_loses_at_IsLocked s l h w hc hl hq
  have he := exec_calls_autoUnlock s l h w hc ha hl
  refine ⟨?_, ?_⟩
  · rw [he.1, hb.1]; rfl
  · rw [he.2, hb.2.1]

/-- The deferred function adds no handler call: a Run invokes the handler as often as its
body does. -/
theorem exec_count_Handler (s : Schedule σ) (h : Handler σ) (w : σ) :
    (s.exec h w).calls.count Call.Handler = (s.execBody h w).calls.count Call.Handler := by
  unfold exec execDeferred
  split_ifs
  · cases hl : s.locker <;> simp [List.count_append]
  · rfl

/-- The number of handler calls in the body of a Run of a competitive task. -/
theorem execBody_count_Handler (s : Schedule σ) (l : Locker σ) (h : Handler σ) (w : σ)
    (hc : s.Compete = true) (hl : s.locker = some l) :
    (s.execBody h w).calls.count Call.Handler =
      if (l.IsLocked s.lockKey w).1 = (false, none) ∧
          (l.Lock s.lockKey s.LockDuration (l.IsLocked s.lockKey w).2).1 = (true, none)
      then 1 else 0 := by
  by_cases hq : (l.IsLocked s.lockKey w).1 = (false, none)
  · by_cases hk : (l.Lock s.lockKey s.LockDuration (l.IsLocked s.lockKey w).2).1 = (true, none)
    · rw [(exec_wins s l h w hc hl hq hk).1, if_pos ⟨hq, hk⟩]
      simp [List.count_cons]
    · rw [(exec_loses_at_Lock s l h w hc hl hq hk).1, if_neg (fun hh => hk hh.2)]
      simp [List.count_cons]
  · rw [(exec_loses_at_IsLocked s l h w hc hl hq).1, if_neg (fun hh => hq hh.1)]
    simp [List.count_cons]

/-- The calls of a Run of a task that is not competitive: the handler, once. -/
theorem exec_calls_of_not_Compete (s : Schedule σ) (h : Handler σ) (w : σ)
    (hc : s.Compete = false) : (s.exec h w).calls = [Call.Handler] := by
  rcases hh : h w with ⟨o, w1⟩
  cases o <;> simp [exec, execDeferred, execBody, isWinner, callHandler, hc, hh]

/-- The calls of `n + 1` triggers, when the first Run ends normally. -/
theorem triggers_succ_of_ok (s : Schedule σ) (h : Handler σ) (n : Nat) (w : σ)
    (hv : (s.exec h w).val = .ok ()) :
    (s.triggers h (n + 1) w).calls =
        (s.exec h w).calls ++ (s.triggers h n (s.exec h w).world).calls ∧
      (s.triggers h (n + 1) w).val = (s.triggers h n (s.exec h w).world).val := by
  simp [triggers, hv]

end Schedule

namespace MemStore

/-- Once a key is deleted, no entry is found under it. -/
theorem lookup_filter_ne (key : String) (st : MemStore) :
    (st.filter (fun e => e.1 != key)).lookup key = none := by
  induction st with
  | nil => rfl
  | cons e st ih =>
    rcases e with ⟨k, v⟩
    by_cases he : k = key
    · have hdrop : (k != key) = false := by simp [he]
      rw [List.filter_cons]
      simp only [hdrop]
      exact ih
    · have hkeep : (k != key) = true := by simpa using he
      have hne : (key == k) = false := by
        simpa [beq_eq_false_iff_ne] using fun hh : key = k => he hh.symm
      rw [List.filter_cons]
      simp only [hkeep, if_true]
      rw [List.lookup_cons, hne]
      exact ih

/-- Over the in-memory store, `IsLocked(key)` answers `(false, nil)` right after
`UnLock(key)`. -/
theorem isLocked_after_unLock (now : Int) (key : String) (st : MemStore) :
    ((locker now).IsLocked key ((locker now).UnLock key st).2).1 = (false, none) := by
  simp [locker, RedisLocker.locker, RedisLocker.IsLocked, RedisLocker.UnLock, client, Del, Get,
    find, lookup_filter_ne]

end MemStore

/-! ## Lemmas on strings -/

/-- Left cancellation for string concatenation. -/
theorem string_append_left_cancel (a b c : String) (h : a ++ b = a ++ c) : b = c := by
  have hd := congrArg String.data h
  simp only [String.data_append] at hd
  exact String.ext (List.append_cancel_left hd)

/-- Right cancellation for string concatenation. -/
theorem string_append_right_cancel (a b c : String) (h : a ++ c = b ++ c) : a = b := by
  have hd := congrArg String.data h
  simp only [String.data_append] at hd
  exact String.ext (List.append_cancel_right hd)

/-! ## The claims -/

/-- C1 (the code departs from the claim): a Run of a competitive, auto-unlocking task that
loses at `IsLocked`, because another instance holds the key, still calls `UnLock` on that
key in its deferred function; the store that held the key before the Run is empty after
it and `IsLocked` then answers `(false, nil)`. -/
theorem C1_losing_run_deletes_foreign_lock :
    competingTask.lockKey = "app.schedules.job.locker" ∧
    ((MemStore.locker 1700000000).IsLocked competingTask.lockKey heldByOther).1 = (true, none) ∧
    (competingTask.exec okHandler heldByOther).calls =
      [Call.IsLocked "app.schedules.job.locker", Call.UnLock "app.schedules.job.locker"] ∧
    (competingTask.exec okHandler heldByOther).world = [] ∧
    (competingTask.exec okHandler heldByOther).world ≠ heldByOther ∧
    ((MemStore.locker 1700000000).IsLocked competingTask.lockKey
      (competingTask.exec okHandler heldByOther).world).1 = (false, none) := by
  decide

/-- C2: in a Run of a competitive task the handler is invoked once when `IsLocked` answered
`(false, nil)` and `Lock` then answered `(true, nil)`, and not at all otherwise; and over a
backend whose `Lock` never answers "acquired" the handler is not invoked in any number
`n` of successive triggers. -/
theorem C2_handler_runs_iff_winner {σ : Type} (s : Schedule σ) (l : Locker σ)
    (h : Handler σ) (hc : s.Compete = true) (hl : s.locker = some l) :
    (∀ w, (s.exec h w).calls.count Call.Handler =
        if (l.IsLocked s.lockKey w).1 = (false, none) ∧
            (l.Lock s.lockKey s.LockDuration (l.IsLocked s.lockKey w).2).1 = (true, none)
        then 1 else 0) ∧
    ((∀ k t w, (l.Lock k t w).1.1 = false) →
      ∀ n w, (s.triggers h n w).calls.count Call.Handler = 0) := by
  refine ⟨fun w => ?_, fun hno n => ?_⟩
  · rw [Schedule.exec_count_Handler, Schedule.execBody_count_Handler s l h w hc hl]
  · induction n with
    | zero => intro w; rfl
    | succ n ih =>
      intro w
      have hv := Schedule.exec_val_of_locker s l h w hl
      rw [(Schedule.triggers_succ_of_ok s h n w hv).1, List.count_append, ih,
        Schedule.exec_count_Handler, Schedule.execBody_count_Handler s l h w hc hl]
      have hk : (l.Lock s.lockKey s.LockDuration (l.IsLocked s.lockKey w).2).1 ≠ (true, none) := by
        intro hh
        have := hno s.lockKey s.LockDuration (l.IsLocked s.lockKey w).2
        rw [hh] at this
        exact Bool.noConfusion this
      rw [if_neg (fun hh => hk hh.2)]

/-- Witness of C2 at the task `competingTask` over the in-memory store. -/
theorem C2_handler_runs_iff_winner_witness :
    competingTask.Compete = true ∧
    (competingTask.exec okHandler []).calls.count Call.Handler = 1 ∧
    (competingTask.exec okHandler heldByOther).calls.count Call.Handler = 0 ∧
    (∀ w, (competingTask.exec okHandler w).calls.count Call.Handler =
        if ((MemStore.locker 1700000000).IsLocked competingTask.lockKey w).1 = (false, none) ∧
            ((MemStore.locker 1700000000).Lock competingTask.lockKey competingTask.LockDuration
              ((MemStore.locker 1700000000).IsLocked competingTask.lockKey w).2).1 = (true, none)
        then 1 else 0) ∧
    (∀ n w, (refusedTask.triggers okHandler n w).calls.count Call.Handler = 0) ∧
    (refusedTask.triggers okHandler 3 []).calls.length = 9 :=
  ⟨rfl, by decide, by decide,
    (C2_handler_runs_iff_winner competingTask (MemStore.locker 1700000000) okHandler rfl rfl).1,
    (C2_handler_runs_iff_winner refusedTask refusingLocker okHandler rfl rfl).2
      (fun _ _ _ => rfl),
    by decide⟩

/-- C3: a Run of a task with `Compete = false` invokes the handler exactly once and makes
no call to the lock capability, whatever `AutoUnlock`, the locker and the handler are; it
ends normally and leaves the world the handler left. -/
theorem C3_noncompetitive_run {σ : Type} (s : Schedule σ) (h : Handler σ) (w : σ)
    (hc : s.Compete = false) :
    (s.exec h w).calls = [Call.Handler] ∧
    (s.exec h w).val = .ok () ∧
    (s.exec h w).world = (h w).2 := by
  rcases hh : h w with ⟨o, w1⟩
  cases o <;>
    simp [Schedule.exec, Schedule.execDeferred, Schedule.execBody, Schedule.isWinner,
      Schedule.callHandler, hc, hh]

/-- Witness of C3 at `plainTask`, which has no locker at all, with a panicking handler. -/
theorem C3_noncompetitive_run_witness :
    plainTask.Compete = false ∧ plainTask.locker.isNone = true ∧
    (plainTask.exec crashHandler heldByOther).calls = [Call.Handler] ∧
    (plainTask.exec crashHandler heldByOther).val = .ok () ∧
    (plainTask.exec crashHandler heldByOther).world = (crashHandler heldByOther).2 :=
  ⟨rfl, rfl, C3_noncompetitive_run plainTask crashHandler heldByOther rfl⟩

/-- C4: a winning Run of a competitive, auto-unlocking task (`IsLocked` answered
`(false, nil)`, `Lock` answered `(true, nil)`) makes exactly the calls `IsLocked`, `Lock`,
the handler, `UnLock`, in this order, whatever the handler does (return `nil`, return an
error, panic); it ends normally, and over a store whose `UnLock` releases the key,
`IsLocked(lockKey)` answers `(false, nil)` in the world the Run leaves. -/
theorem C4_winner_unlocks_after_handler {σ : Type} (s : Schedule σ) (l : Locker σ)
    (h : Handler σ) (w : σ)
    (hc : s.Compete = true) (ha : s.AutoUnlock = true) (hl : s.locker = some l)
    (hq : (l.IsLocked s.lockKey w).1 = (false, none))
    (hk : (l.Lock s.lockKey s.LockDuration (l.IsLocked s.lockKey w).2).1 = (true, none))
    (hrel : ∀ w1, (l.IsLocked s.lockKey (l.UnLock s.lockKey w1).2).1 = (false, none)) :
    (s.exec h w).calls =
        [Call.IsLocked s.lockKey, Call.Lock s.lockKey s.LockDuration, Call.Handler,
          Call.UnLock s.lockKey] ∧
    (s.exec h w).calls.count (Call.UnLock s.lockKey) = 1 ∧
    (s.exec h w).val = .ok () ∧
    (l.IsLocked s.lockKey (s.exec h w).world).1 = (false, none) := by
  have hb := Schedule.exec_wins s l h w hc hl hq hk
  have he := Schedule.exec_calls_autoUnlock s l h w hc ha hl
  have hcalls : (s.exec h w).calls =
      [Call.IsLocked s.lockKey, Call.Lock s.lockKey s.LockDuration, Call.Handler,
        Call.UnLock s.lockKey] := by
    rw [he.1, hb.1]; rfl
  refine ⟨hcalls, ?_, Schedule.exec_val_of_locker s l h w hl, ?_⟩
  · rw [hcalls]; simp [List.count_cons]
  · rw [he.2]; exact hrel _

/-- Witness of C4 at `competingTask` over the empty in-memory store, for a handler that
returns `nil`, one that returns an error and one that panics. -/
theorem C4_winner_unlocks_after_handler_witness :
    (competingTask.Compete = true ∧ competingTask.AutoUnlock = true) ∧
    ((competingTask.exec okHandler []).calls =
        [Call.IsLocked competingTask.lockKey,
          Call.Lock competingTask.lockKey competingTask.LockDuration, Call.Handler,
          Call.UnLock competingTask.lockKey] ∧
      (competingTask.exec okHandler []).calls.count (Call.UnLock competingTask.lockKey) = 1 ∧
      (competingTask.exec okHandler []).val = .ok () ∧
      ((MemStore.locker 1700000000).IsLocked competingTask.lockKey
        (competingTask.exec okHandler []).world).1 = (false, none)) ∧
    ((MemStore.locker 1700000000).IsLocked competingTask.lockKey
        (competingTask.exec errHandler []).world).1 = (false, none) ∧
    (competingTask.exec crashHandler []).calls.count (Call.UnLock competingTask.lockKey) = 1 ∧
    ((MemStore.locker 1700000000).IsLocked competingTask.lockKey
        (competingTask.exec crashHandler []).world).1 = (false, none) :=
  ⟨⟨rfl, rfl⟩,
    C4_winner_unlocks_after_handler competingTask (MemStore.locker 1700000000) okHandler []
      rfl rfl rfl (by decide) (by decide) (MemStore.isLocked_after_unLock _ _),
    (C4_winner_unlocks_after_handler competingTask (MemStore.locker 1700000000) errHandler []
      rfl rfl rfl (by decide) (by decide) (MemStore.isLocked_after_unLock _ _)).2.2.2,
    (C4_winner_unlocks_after_handler competingTask (MemStore.locker 1700000000) crashHandler []
      rfl rfl rfl (by decide) (by decide) (MemStore.isLocked_after_unLock _ _)).2.1,
    (C4_winner_unlocks_after_handler competingTask (MemStore.locker 1700000000) crashHandler []
      rfl rfl rfl (by decide) (by decide) (MemStore.isLocked_after_unLock _ _)).2.2.2⟩

/-- C5: with a locker set and a handler that panics, the panic reaches the deferred
function of the Run (the body is panicking whenever the handler was invoked) and is
recovered there: the Run ends normally, and so does every Run of any number `n` of
successive triggers, so a panic in one Run never stops the next trigger. When the task is
not competitive each of the `n` triggers invokes the handler again. -/
theorem C5_handler_panic_is_recovered {σ : Type} (s : Schedule σ) (l : Locker σ)
    (h : Handler σ) (hl : s.locker = some l)
    (hp : ∀ w, ∃ v, (h w).1 = Outcome.crash v) :
    (∀ w, Call.Handler ∈ (s.execBody h w).calls → ∃ v, (s.execBody h w).val = .error v) ∧
    (∀ w, (s.exec h w).val = .ok ()) ∧
    (∀ n w, (s.triggers h n w).val = .ok ()) ∧
    (s.Compete = false → ∀ n w, (s.triggers h n w).calls.count Call.Handler = n) := by
  refine ⟨fun w => ?_, fun w => Schedule.exec_val_of_locker s l h w hl, fun n => ?_,
    fun hc n => ?_⟩
  · by_cases hc : s.Compete = true
    · by_cases hq : (l.IsLocked s.lockKey w).1 = (false, none)
      · by_cases hk :
            (l.Lock s.lockKey s.LockDuration (l.IsLocked s.lockKey w).2).1 = (true, none)
        · obtain ⟨v, hv⟩ := hp (l.Lock s.lockKey s.LockDuration (l.IsLocked s.lockKey w).2).2
          exact fun _ => ⟨v, Schedule.execBody_val_of_crash s l h w v hc hl hq hk hv⟩
        · intro hmem
          rw [(Schedule.exec_loses_at_Lock s l h w hc hl hq hk).1] at hmem
          simp at hmem
      · intro hmem
        rw [(Schedule.exec_loses_at_IsLocked s l h w hc hl hq).1] at hmem
        simp at hmem
    · obtain ⟨v, hv⟩ := hp w
      have hc0 : s.Compete = false := by simpa using hc
      exact fun _ => ⟨v, Schedule.execBody_val_of_crash_plain s h w v hc0 hv⟩
  · induction n with
    | zero => intro w; rfl
    | succ n ih =>
      intro w
      rw [(Schedule.triggers_succ_of_ok s h n w (Schedule.exec_val_of_locker s l h w hl)).2]
      exact ih _
  · induction n with
    | zero => intro w; rfl
    | succ n ih =>
      intro w
      rw [(Schedule.triggers_succ_of_ok s h n w (Schedule.exec_val_of_locker s l h w hl)).1,
        List.count_append, ih, Schedule.exec_calls_of_not_Compete s h w hc]
      simp [List.count_cons, Nat.add_comm]

/-- Witness of C5: a panicking handler under `competingTask` (a winning Run over the empty
store) and under the non-competitive `plainLockedTask` (three triggers). -/
theorem C5_handler_panic_is_recovered_witness :
    (competingTask.execBody crashHandler []).val = .error "boom" ∧
    (competingTask.exec crashHandler []).val = .ok () ∧
    (competingTask.triggers crashHandler 3 []).val = .ok () ∧
    (plainLockedTask.triggers crashHandler 3 []).calls.count Call.Handler = 3 :=
  ⟨rfl,
    (C5_handler_panic_is_recovered competingTask (MemStore.locker 1700000000) crashHandler rfl
      (fun _ => ⟨"boom", rfl⟩)).2.1 [],
    (C5_handler_panic_is_recovered competingTask (MemStore.locker 1700000000) crashHandler rfl
      (fun _ => ⟨"boom", rfl⟩)).2.2.1 3 [],
    (C5_handler_panic_is_recovered plainLockedTask (MemStore.locker 1700000000) crashHandler rfl
      (fun _ => ⟨"boom", rfl⟩)).2.2.2 rfl 3 []⟩

/-! ### Serve -/

/-- C6 (counterexample): for the periodic task `emptySpecTask`, whose spec the engine
`rejectEmpty` rejects, `Serve` returns `nil`; "an error if and only if the spec is rejected"
fails. -/
theorem C6_rejected_spec_returns_nil :
    emptySpecTask.type = Timing ∧ emptySpecTask.timingHandler.isSome = true ∧
    rejectEmpty emptySpecTask.Spec = false ∧
    (emptySpecTask.Serve rejectEmpty).err = none ∧
    ¬ ((emptySpecTask.Serve rejectEmpty).err ≠ none ↔ rejectEmpty emptySpecTask.Spec = false) := by
  decide

/-- C6 (amended): for a periodic task (`Timing` or `OnceAndTiming`) with a periodic handler
`h`, `Serve` returns `nil` whether or not the engine accepts the spec; when the spec is
rejected the started engine holds no entry, so a firing starts no Run, and when it is
accepted a firing starts exactly the Run of `h`. -/
theorem C6_serve_returns_nil {σ : Type} (accepts : String → Bool) (s : Schedule σ)
    (h : Handler σ) (hm : s.type = Timing ∨ s.type = OnceAndTiming)
    (hh : s.timingHandler = some h) :
    (s.Serve accepts).err = none ∧
    (accepts s.Spec = false →
      (s.Serve accepts).sched.cron = some ⟨[], true⟩ ∧ (s.Serve accepts).sched.fire = []) ∧
    (accepts s.Spec = true →
      (s.Serve accepts).sched.cron = some ⟨[(s.Spec, h)], true⟩ ∧
      (s.Serve accepts).sched.fire = [h]) := by
  rcases hm with hm | hm <;>
    cases ha : accepts s.Spec <;>
    simp [Schedule.Serve, Schedule.execTiming, Schedule.fire, Cron.AddFunc, Cron.Start,
      Cron.New, hm, hh, ha, Once, Timing, OnceAndTiming]

/-- Witness of C6 at `emptySpecTask` (spec rejected) and at `competingTask` (spec accepted). -/
theorem C6_serve_returns_nil_witness :
    ((emptySpecTask.Serve rejectEmpty).err = none ∧
      (emptySpecTask.Serve rejectEmpty).sched.fire = []) ∧
    ((competingTask.Serve rejectEmpty).err = none ∧
      (competingTask.Serve rejectEmpty).sched.fire = [okHandler]) :=
  ⟨⟨(C6_serve_returns_nil rejectEmpty emptySpecTask okHandler (Or.inl rfl) rfl).1,
      ((C6_serve_returns_nil rejectEmpty emptySpecTask okHandler (Or.inl rfl) rfl).2.1 rfl).2⟩,
    ⟨(C6_serve_returns_nil rejectEmpty competingTask okHandler (Or.inr rfl) rfl).1,
      ((C6_serve_returns_nil rejectEmpty competingTask okHandler (Or.inr rfl) rfl).2.2 rfl).2⟩⟩

/-! ### Validation -/

/-- C7 (counterexample): the `Once` task `onceNoSpecTask` has a non-empty name and an empty
spec, and `ConfigDidLoad` panics on it; "fails if and only if the name is empty, or the mode
is periodic and the spec is empty" does not hold. -/
theorem C7_once_task_with_empty_spec_panics :
    onceNoSpecTask.name = "job" ∧ onceNoSpecTask.type = Once ∧ onceNoSpecTask.Spec = "" ∧
    Schedule.ConfigDidLoad 64 onceNoSpecTask = .error "schedules config is invalid" ∧
    ¬ (Schedule.ConfigDidLoad 64 onceNoSpecTask = .error "schedules config is invalid" ↔
        (onceNoSpecTask.name = "" ∨
          ((onceNoSpecTask.type = Timing ∨ onceNoSpecTask.type = OnceAndTiming) ∧
            onceNoSpecTask.Spec = ""))) := by
  have hfail : Schedule.ConfigDidLoad 64 onceNoSpecTask = .error "schedules config is invalid" :=
    rfl
  refine ⟨rfl, rfl, rfl, hfail, fun hiff => ?_⟩
  have := hiff.1 hfail
  revert this
  decide

/-- C7 (amended): `ConfigDidLoad` panics with `"schedules config is invalid"` exactly when
the name is empty or the spec is empty, whatever the mode; otherwise it returns the
descriptor with `LockPrefix` defaulted to the application name when it was empty, and the
name, mode and spec unchanged. -/
theorem C7_validation {σ : Type} (bits : Nat) (s : Schedule σ) :
    (Schedule.ConfigDidLoad bits s = .error "schedules config is invalid" ↔
      (s.name = "" ∨ s.Spec = "")) ∧
    (¬ (s.name = "" ∨ s.Spec = "") →
      ∃ s1, Schedule.ConfigDidLoad bits s = .ok s1 ∧
        s1.LockPrefix = (if s.LockPrefix = "" then s.appName else s.LockPrefix) ∧
        s1.name = s.name ∧ s1.type = s.type ∧ s1.Spec = s.Spec) := by
  by_cases hv : s.name = "" ∨ s.Spec = ""
  · simp [Schedule.ConfigDidLoad, hv]
  · refine ⟨?_, fun _ => ?_⟩
    · simp only [Schedule.ConfigDidLoad, hv, if_false, iff_false]
      split_ifs <;> simp
    · simp only [Schedule.ConfigDidLoad, hv, if_false]
      split_ifs <;> simp_all

/-! ### The mode table -/

/-- C8 (counterexample): `Serve` on the `Once` task `onceNoHandlerTask`, which has no
one-shot handler, starts no Run at all, where the table promises exactly one; and `Serve`
on the periodic task `emptySpecTask`, which has a periodic handler, calls `AddFunc` once and
leaves no callback registered, because the engine rejects the spec. -/
theorem C8_once_without_handler_starts_no_run :
    (onceNoHandlerTask.type = Once ∧ (onceNoHandlerTask.Serve rejectEmpty).runs.length = 0) ∧
    (emptySpecTask.type = Timing ∧ emptySpecTask.timingHandler.isSome = true ∧
      (emptySpecTask.Serve rejectEmpty).addFuncs = [""] ∧
      ((emptySpecTask.Serve rejectEmpty).sched.cron.map (fun c => c.entries.length)) = some 0) := by
  decide

/-- C8 (amended): the effects of `Serve` by mode. The one-shot path starts the Run of the
one-shot handler in the modes `Once` and `OnceAndTiming` when that handler is configured,
and nothing otherwise; the periodic path, in the modes `Timing` and `OnceAndTiming` when a
periodic handler is configured, creates an engine, calls `AddFunc` exactly once with the
configured spec (which registers the callback exactly when the engine accepts the spec) and
starts it; in every other case no engine is created and `AddFunc` is not called. `Stop`, and
any other value of the mode, does nothing. -/
theorem C8_mode_table {σ : Type} (accepts : String → Bool) (s : Schedule σ) :
    (s.Serve accepts).runs =
      (if s.type = Once ∨ s.type = OnceAndTiming then s.onceHandler.toList else []) ∧
    (s.Serve accepts).addFuncs =
      (if (s.type = Timing ∨ s.type = OnceAndTiming) ∧ s.timingHandler.isSome then [s.Spec]
        else []) ∧
    (s.Serve accepts).sched.cron =
      (if s.type = Timing ∨ s.type = OnceAndTiming then
        match s.timingHandler with
        | none => s.cron
        | some h => some ⟨if accepts s.Spec then [(s.Spec, h)] else [], true⟩
      else s.cron) := by
  have h12 : (Once : TaskType) ≠ Timing := by decide
  have h13 : (Once : TaskType) ≠ OnceAndTiming := by decide
  have h23 : (Timing : TaskType) ≠ OnceAndTiming := by decide
  by_cases h1 : s.type = Once
  · cases ho : s.onceHandler <;>
      simp [Schedule.Serve, Schedule.execOnce, h1, h12, h13, ho]
  · by_cases h2 : s.type = Timing
    · cases ht : s.timingHandler <;> cases ha : accepts s.Spec <;>
        simp [Schedule.Serve, Schedule.execTiming, Cron.AddFunc, Cron.Start, Cron.New, h2,
          h12.symm, h23, ht, ha]
    · by_cases h3 : s.type = OnceAndTiming
      · cases ht : s.timingHandler <;> cases ha : accepts s.Spec <;> cases ho : s.onceHandler <;>
          simp [Schedule.Serve, Schedule.execOnce, Schedule.execTiming, Cron.AddFunc, Cron.Start,
            Cron.New, h3, h13.symm, h23.symm, ht, ha, ho]
      · simp [Schedule.Serve, h1, h2, h3]

/-! ### The lock key -/

/-- C9 (counterexample): the prefix `a` with the name `b.schedules.c` and the prefix
`a.schedules.b` with the name `c` are different pairs with the same lock key. -/
theorem C9_distinct_pairs_share_a_key :
    (("a", "b.schedules.c") : String × String) ≠ ("a.schedules.b", "c") ∧
    ({ competingTask with LockPrefix := "a", name := "b.schedules.c" }).lockKey =
      ({ competingTask with LockPrefix := "a.schedules.b", name := "c" }).lockKey := by
  decide

/-- C9 (amended): the lock key is a function of `LockPrefix` and `name` alone, and it is
injective in each of them separately: with the same prefix, two descriptors with the same
key have the same name, and with the same name, two descriptors with the same key have the
same prefix. -/
theorem C9_lockKey_deterministic_and_separately_injective {σ : Type} (s1 s2 : Schedule σ) :
    (s1.LockPrefix = s2.LockPrefix → s1.name = s2.name → s1.lockKey = s2.lockKey) ∧
    (s1.LockPrefix = s2.LockPrefix → s1.lockKey = s2.lockKey → s1.name = s2.name) ∧
    (s1.name = s2.name → s1.lockKey = s2.lockKey → s1.LockPrefix = s2.LockPrefix) := by
  refine ⟨fun hp hn => ?_, fun hp hk => ?_, fun hn hk => ?_⟩
  · simp [Schedule.lockKey, Schedule.Name, hp, hn]
  · simp only [Schedule.lockKey, Schedule.Name, hp] at hk
    have h1 := string_append_right_cancel _ _ _ hk
    rw [String.append_assoc, String.append_assoc] at h1
    have h2 := string_append_left_cancel _ _ _ h1
    have h3 := string_append_left_cancel _ _ _ h2
    exact string_append_left_cancel _ _ _ h3
  · simp only [Schedule.lockKey, Schedule.Name, hn] at hk
    have h1 := string_append_right_cancel _ _ _ hk
    have h2 := string_append_right_cancel _ _ _ h1
    exact string_append_right_cancel _ _ _ h2

/-! ### The lock duration -/

/-- C10 (counterexample): on a 64-bit `uint`, `LockSeconds = 9223372037` is a valid
configuration and `ConfigDidLoad` leaves a negative `LockDuration`; with
`LockSeconds = 2 ^ 55` it leaves `LockDuration = 0`. -/
theorem C10_large_LockSeconds_wraps :
    (9223372037 < 2 ^ 64 ∧
      ((Schedule.ConfigDidLoad 64 { competingTask with LockSeconds := 9223372037 }).toOption.map
        (fun s => s.LockDuration)) = some (-9223372036709551616)) ∧
    (2 ^ 55 < 2 ^ 64 ∧
      ((Schedule.ConfigDidLoad 64 { competingTask with LockSeconds := 2 ^ 55 }).toOption.map
        (fun s => s.LockDuration)) = some 0) := by
  decide

/-- C10 (amended): on a valid configuration `ConfigDidLoad` returns, and when
`10 ^ 9 * LockSeconds` fits the `uint` (below `2 ^ bits`) and the signed 64-bit duration
(below `2 ^ 63`) the `LockDuration` it leaves is 10 seconds for `LockSeconds = 0` and
`LockSeconds` seconds otherwise, hence strictly positive. -/
theorem C10_lockDuration {σ : Type} (bits : Nat) (s : Schedule σ)
    (hn : s.name ≠ "") (hs : s.Spec ≠ "")
    (hb : 1000000000 * s.LockSeconds < 2 ^ bits)
    (hd : 1000000000 * s.LockSeconds < 2 ^ 63) :
    ∃ s1, Schedule.ConfigDidLoad bits s = .ok s1 ∧
      s1.LockDuration =
        (if s.LockSeconds = 0 then 10 * 1000000000 else (s.LockSeconds : Int) * 1000000000) ∧
      0 < s1.LockDuration := by
  have hv : ¬ (s.name = "" ∨ s.Spec = "") := by simp [hn, hs]
  have h64 : 1000000000 * s.LockSeconds < 2 ^ 64 := by omega
  have hconv : Schedule.toDuration ((1000000000 * s.LockSeconds) % 2 ^ bits) =
      (s.LockSeconds : Int) * 1000000000 := by
    rw [Nat.mod_eq_of_lt hb]
    unfold Schedule.toDuration
    rw [Nat.mod_eq_of_lt h64, if_pos hd]
    push_cast
    ring
  by_cases h0 : s.LockSeconds = 0
  · simp only [Schedule.ConfigDidLoad, hv, if_false]
    split_ifs <;> simp_all [Schedule.Second]
  · have hpos : (0 : Int) < (s.LockSeconds : Int) * 1000000000 := by
      have : 0 < s.LockSeconds := Nat.pos_of_ne_zero h0
      positivity
    simp only [Schedule.ConfigDidLoad, hv, if_false]
    split_ifs <;> simp_all

/-- Witness of C10 on a 64-bit `uint`: `LockSeconds = 0` and `LockSeconds = 30`. -/
theorem C10_lockDuration_witness :
    (∃ s1, Schedule.ConfigDidLoad 64 competingTask = .ok s1 ∧
      s1.LockDuration = 10000000000 ∧ 0 < s1.LockDuration) ∧
    (∃ s1, Schedule.ConfigDidLoad 64 { competingTask with LockSeconds := 30 } = .ok s1 ∧
      s1.LockDuration = 30000000000 ∧ 0 < s1.LockDuration) :=
  ⟨C10_lockDuration 64 competingTask (by decide) (by decide) (by decide) (by decide),
    C10_lockDuration 64 { competingTask with LockSeconds := 30 } (by decide) (by decide)
      (by decide) (by decide)⟩
